import Mathlib

/-!
Verification of the IBM GenAI LangChain adapter
(`src/genai/extensions/langchain/llm.py`).

The adapter is a thin shim between the LangChain LLM interface and the
GenAI SDK.  We shallowly embed its two entry points `_call` and `_stream`
as pure Lean functions over explicit adapter state.  Text is modelled as
`List Char`; the remote service's behaviour (the generated text of a batch
call, the units of a streaming call, a possible mid-stream transport
failure) is passed in as explicit data, since the network is outside the
program.  Helpers owned by the adapter's dependencies (langchain's
`enforce_stop_tokens`, pydantic's extra-field validation) are not part of
this repository; they are modelled from the specification and marked as
such in their doc comments.
-/

namespace GenAI

/-- Character strings, modelled as lists of characters. -/
abbrev Str := List Char

/-- `genai.Credentials`: opaque endpoint + auth token bundle, passed
through unchanged by the adapter. -/
structure Credentials where
  api_key : Str
  api_endpoint : Str
deriving DecidableEq

/-- The fields of `genai.schemas.GenerateParams` that the adapter reads or
writes: the streaming flag and the stop sequences.  All other generation
knobs are passed through verbatim and never touched, so they are omitted. -/
structure GenerateParams where
  stream : Bool := false
  stop_sequences : Option (List Str) := none
deriving DecidableEq

/-- The adapter `LangChainInterface`: configured credentials, model id and
generation parameters (src lines 36–38). -/
structure LangChainInterface where
  credentials : Option Credentials := none
  model : Option Str := none
  params : Option GenerateParams := none
deriving DecidableEq

/-- One unit of the remote stream (`model.generate_stream` response): its
generated text plus its remaining serializable fields, which
`response.dict()` exposes as metadata. -/
structure StreamResponse where
  generated_text : Str
  meta : List (Str × Str) := []
deriving DecidableEq

instance : Inhabited StreamResponse := ⟨{ generated_text := [] }⟩

/-- `langchain.schema.output.GenerationChunk` as the adapter builds it:
`GenerationChunk(text=response.generated_text, generation_info=response.dict())`
(src line 121).  `generation_info` carries the full response unit. -/
structure GenerationChunk where
  text : Str
  generation_info : StreamResponse
deriving DecidableEq

/-- A transport/auth error raised by the remote service. -/
structure TransportError where
  message : Str
deriving DecidableEq

/-- The remote streaming response: the well-formed units delivered, and an
optional transport failure raised after the last delivered unit. -/
structure RemoteStream where
  units : List StreamResponse := []
  failure : Option TransportError := none
deriving DecidableEq

/-- Does some member of `stop` start at the head of `t`? -/
def startsWithAny (stop : List Str) (t : Str) : Bool :=
  stop.any fun s => decide (s <+: t)

/-- Start offset of the earliest occurrence in `t` of any member of
`stop`, scanning left to right; `none` if no member occurs. -/
def findStop (stop : List Str) : Str → Option Nat
  | [] => if startsWithAny stop [] then some 0 else none
  | c :: rest =>
    if startsWithAny stop (c :: rest) then some 0
    else (findStop stop rest).map (· + 1)

/-- Modelled from the spec: langchain's `enforce_stop_tokens` helper,
which is imported at src line 11 but owned by langchain, not this repository.  Per
the spec's truncation policy: find the earliest occurrence (by start
offset) of any stop string in the text and truncate the text to end
immediately before it; if no stop string occurs, return the text
unchanged. -/
def enforce_stop_tokens (text : Str) (stop : List Str) : Str :=
  match findStop stop text with
  | some i => text.take i
  | none => text

/-- Python's `stop or cfg` (src lines 79 and 116): `stop` when it is a
present, non-empty list; otherwise `cfg` (both `None` and the empty list
are falsy in Python). -/
def pyOr (stop cfg : Option (List Str)) : Option (List Str) :=
  match stop with
  | some s => if s.isEmpty then cfg else some s
  | none => cfg

/-- The parameters in effect for a call, embedding
`params = self.params or GenerateParams()` followed by
`params.stop_sequences = stop or params.stop_sequences`
(src lines 78–79 and 115–116). -/
def effectiveParams (self : LangChainInterface) (stop : Option (List Str)) :
    GenerateParams :=
  let p := self.params.getD {}
  { p with stop_sequences := pyOr stop p.stop_sequences }

/-- The adapter state after the parameter resolution of `_call` or
`_stream`.  In the source, `params` aliases `self.params` whenever the
latter is set, so the in-place assignment to `params.stop_sequences`
mutates the configured parameters object; when `self.params` is `None` a
fresh default object is mutated and discarded. -/
def adapterAfterCall (self : LangChainInterface) (stop : Option (List Str)) :
    LangChainInterface :=
  match self.params with
  | some _ => { self with params := some (effectiveParams self stop) }
  | none => self

/-- Chunk construction at src line 121: text is the unit's generated text,
`generation_info` is the unit's full serialized metadata. -/
def mkChunk (r : StreamResponse) : GenerationChunk :=
  { text := r.generated_text, generation_info := r }

/-- `_stream` (src lines 96–123): resolve effective parameters (mutating
the configured object, see `adapterAfterCall`), then yield one
`GenerationChunk` per remote response unit, in arrival order, with a
possible trailing transport failure.  Returns the yielded chunks, the
failure raised after them (if any), and the adapter state afterwards. -/
def streamComplete (self : LangChainInterface) (prompt : Str)
    (stop : Option (List Str)) (remote : RemoteStream) :
    List GenerationChunk × Option TransportError × LangChainInterface :=
  let _ := prompt
  let _ := effectiveParams self stop
  (remote.units.map mkChunk, remote.failure, adapterAfterCall self stop)

/-- The `for chunk in self._stream(...)` accumulation loop of `_call`
(src lines 82–83): concatenate the texts of the chunks in order; if the
stream raises after its last unit, the error propagates out of the loop. -/
def foldChunks (acc : Str) :
    List GenerationChunk → Option TransportError → Except TransportError Str
  | [], none => .ok acc
  | [], some e => .error e
  | c :: cs, f => foldChunks (acc ++ c.text) cs f

/-- `_call` (src lines 59–93): resolve effective parameters (mutating the
configured object).  If streaming is enabled, drive `_stream` with the
same prompt and stop, concatenate the chunk texts, and apply
`enforce_stop_tokens` exactly when the caller passed `stop` (`if stop is
not None`, src line 84).  Otherwise issue one batch request — whose
generated text is the `remoteText` argument — and apply
`enforce_stop_tokens` exactly when the effective `stop_sequences` is not
`None` (src line 91).  Returns the result (or propagated stream error)
and the adapter state afterwards. -/
def call (self : LangChainInterface) (prompt : Str) (stop : Option (List Str))
    (remoteText : Str) (remote : RemoteStream) :
    Except TransportError Str × LangChainInterface :=
  let params := effectiveParams self stop
  let self1 := adapterAfterCall self stop
  if params.stream then
    match streamComplete self1 prompt stop remote with
    | (chunks, failure, self2) =>
      match foldChunks [] chunks failure with
      | .error e => (.error e, self2)
      | .ok t =>
        match stop with
        | some s => (.ok (enforce_stop_tokens t s), self2)
        | none => (.ok t, self2)
  else
    match params.stop_sequences with
    | some ss => (.ok (enforce_stop_tokens remoteText ss), self1)
    | none => (.ok remoteText, self1)

/-- Events observable from `_stream`'s generator body when a run manager
is supplied.  `yielded c`: the generator yields chunk `c` to the consumer
(src line 121); `callback tok r`: `run_manager.on_llm_new_token(token=tok,
response=r)` runs (src line 123). -/
inductive StreamEvent where
  | yielded (c : GenerationChunk)
  | callback (token : Str) (response : StreamResponse)
deriving DecidableEq

/-- The event trace of `_stream`'s generator, over remote units `rs`, when
a run manager is supplied and the consumer pulls `n` items and then
abandons iteration.  Execution suspends at each `yield`; the
`on_llm_new_token` call placed after the `yield` therefore runs only when
the consumer requests the following item, and a pull past the last unit
runs the pending callback and then ends the sequence. -/
def pullTrace : List StreamResponse → Nat → List StreamEvent
  | _, 0 => []
  | [], _ + 1 => []
  | r :: _, 1 => [.yielded (mkChunk r)]
  | r :: rs, n + 2 =>
    .yielded (mkChunk r) :: .callback r.generated_text r :: pullTrace rs (n + 1)

/-- The recognized adapter configuration fields (src lines 36–38). -/
def recognizedFields : List Str :=
  ["credentials".toList, "model".toList, "params".toList]

/-- A pydantic validation error naming the offending field. -/
structure ValidationError where
  field : Str
deriving DecidableEq

/-- Modelled from the spec: pydantic `BaseModel` validation under
`extra = Extra.forbid` (src lines 40–43); pydantic itself is not part of
this repository.  Construction receives the names of the supplied fields
and rejects any name outside the recognized adapter fields with a
validation error, before anything else runs — in particular before any
remote call could be attempted. -/
def validateConstruction (fields : List Str) : Except ValidationError Unit :=
  match fields.filter (fun f => decide (f ∉ recognizedFields)) with
  | [] => .ok ()
  | f :: _ => .error { field := f }

/-- An import-time error, carrying its message. -/
structure ModuleImportError where
  message : Str
deriving DecidableEq

/-- The message raised by the guarded import block (src line 13). -/
def installHintMessage : Str :=
  "Could not import langchain: Please install ibm-generative-ai[langchain] extension.".toList

/-- The bare message Python raises when importing from an absent package. -/
def bareImportMessage : Str :=
  "No module named langchain".toList

/-- The module's import sequence (src lines 1–16).  Lines 5–6 import
`langchain.callbacks.manager` and `langchain.schema.output` unguarded;
only lines 10–11 (`langchain.llms.base`, `langchain.llms.utils`) sit
inside the `try` whose handler re-raises with the install instruction
(src line 13).  `callbacksImportOk` / `llmsImportOk` say whether those two
groups of langchain imports succeed; when the langchain package is absent,
both fail, and the unguarded import at line 5 runs first. -/
def loadModule (callbacksImportOk llmsImportOk : Bool) :
    Except ModuleImportError Unit :=
  if !callbacksImportOk then
    .error { message := bareImportMessage }
  else if !llmsImportOk then
    .error { message := installHintMessage }
  else
    .ok ()

/-- Sample adapter configured for streaming. -/
def sampleStreamAdapter : LangChainInterface :=
  { credentials := some { api_key := "key".toList, api_endpoint := "host".toList }
    model := some "google/flan-ul2".toList
    params := some { stream := true, stop_sequences := none } }

/-- Sample adapter configured without streaming and with stop sequence
`"a"`. -/
def sampleCfgAdapter : LangChainInterface :=
  { credentials := some { api_key := "key".toList, api_endpoint := "host".toList }
    model := some "google/flan-ul2".toList
    params := some { stream := false, stop_sequences := some ["a".toList] } }

/-- The remote stream of the spec's streaming scenario. -/
def helloWorldStream : RemoteStream :=
  { units := [{ generated_text := "Hello, ".toList },
              { generated_text := "world!".toList }]
    failure := none }

/-- A member of `S` occurs in `t` at start offset `i`. -/
abbrev OccursAt (S : List Str) (t : Str) (i : Nat) : Prop :=
  ∃ s ∈ S, s <+: t.drop i

theorem startsWithAny_iff (S : List Str) (t : Str) :
    startsWithAny S t = true ↔ ∃ s ∈ S, s <+: t := by
  simp [startsWithAny]

theorem findStop_occurs (S : List Str) (t : Str) :
    ∀ i, findStop S t = some i → OccursAt S t i := by
  induction t with
  | nil =>
    intro i h
    rw [findStop] at h
    by_cases hsw : startsWithAny S [] = true
    · rw [if_pos hsw] at h
      injection h with h
      subst h
      exact (startsWithAny_iff S []).mp hsw
    · rw [if_neg hsw] at h
      cases h
  | cons c rest ih =>
    intro i h
    rw [findStop] at h
    by_cases hsw : startsWithAny S (c :: rest) = true
    · rw [if_pos hsw] at h
      injection h with h
      subst h
      exact (startsWithAny_iff S (c :: rest)).mp hsw
    · rw [if_neg hsw] at h
      cases hfs : findStop S rest with
      | none => rw [hfs] at h; cases h
      | some j =>
        rw [hfs] at h
        injection h with h
        subst h
        exact ih j hfs

theorem findStop_min (S : List Str) (t : Str) :
    ∀ i, findStop S t = some i → ∀ j, j < i → ¬ OccursAt S t j := by
  induction t with
  | nil =>
    intro i h j hj hocc
    rw [findStop] at h
    by_cases hsw : startsWithAny S [] = true
    · rw [if_pos hsw] at h; injection h with h; omega
    · rw [if_neg hsw] at h; cases h
  | cons c rest ih =>
    intro i h j hj hocc
    rw [findStop] at h
    by_cases hsw : startsWithAny S (c :: rest) = true
    · rw [if_pos hsw] at h; injection h with h; omega
    · rw [if_neg hsw] at h
      cases hfs : findStop S rest with
      | none => rw [hfs] at h; cases h
      | some k =>
        rw [hfs] at h
        injection h with h
        subst h
        cases j with
        | zero => exact hsw ((startsWithAny_iff S (c :: rest)).mpr hocc)
        | succ j =>
          refine ih k hfs j ?_ hocc
          have hj' : j + 1 < k + 1 := hj
          omega

theorem findStop_none_not_occurs (S : List Str) (t : Str) :
    findStop S t = none → ∀ j, ¬ OccursAt S t j := by
  induction t with
  | nil =>
    intro h j hocc
    rw [findStop] at h
    by_cases hsw : startsWithAny S [] = true
    · rw [if_pos hsw] at h; cases h
    · obtain ⟨s, hs, hp⟩ := hocc
      rw [List.drop_nil] at hp
      exact hsw ((startsWithAny_iff S []).mpr ⟨s, hs, hp⟩)
  | cons c rest ih =>
    intro h j hocc
    rw [findStop] at h
    by_cases hsw : startsWithAny S (c :: rest) = true
    · rw [if_pos hsw] at h; cases h
    · rw [if_neg hsw] at h
      cases j with
      | zero => exact hsw ((startsWithAny_iff S (c :: rest)).mpr hocc)
      | succ j =>
        have hfs : findStop S rest = none := by
          cases hfs : findStop S rest with
          | none => rfl
          | some k => rw [hfs] at h; cases h
        exact ih hfs j hocc

theorem findStop_nil_stop (t : Str) : findStop [] t = none := by
  induction t with
  | nil => rw [findStop]; simp [startsWithAny]
  | cons c rest ih => rw [findStop]; simp [startsWithAny, ih]

theorem enforce_stop_tokens_nil (t : Str) : enforce_stop_tokens t [] = t := by
  simp [enforce_stop_tokens, findStop_nil_stop]

theorem foldChunks_ok (cs : List GenerationChunk) :
    ∀ acc, foldChunks acc cs none = .ok (acc ++ (cs.map GenerationChunk.text).flatten) := by
  induction cs with
  | nil => intro acc; simp [foldChunks]
  | cons c cs ih => intro acc; simp [foldChunks, ih]

theorem foldChunks_err (cs : List GenerationChunk) (e : TransportError) :
    ∀ acc, foldChunks acc cs (some e) = .error e := by
  induction cs with
  | nil => intro acc; rfl
  | cons c cs ih => intro acc; simp [foldChunks, ih]

/-- C2: for every text `T` and every non-empty ordered stop list `S`, if
some member of `S` occurs in `T` and `i` is the smallest start offset of
any such occurrence, then the stop-sequence truncation applied by
`complete` returns exactly `T[0:i]`; if no member of `S` occurs in `T`,
truncation returns `T` unchanged. -/
theorem truncation_earliest_occurrence (S : List Str) (t : Str) (hS : S ≠ []) :
    (∀ i, OccursAt S t i → (∀ j, OccursAt S t j → i ≤ j) →
        enforce_stop_tokens t S = t.take i)
    ∧ ((∀ i, ¬ OccursAt S t i) → enforce_stop_tokens t S = t) := by
  have _ := hS
  constructor
  · intro i hocc hmin
    cases hfs : findStop S t with
    | none => exact absurd hocc (findStop_none_not_occurs S t hfs i)
    | some k =>
      have h1 : i ≤ k := hmin k (findStop_occurs S t k hfs)
      have h2 : k ≤ i := by
        by_contra hlt
        push_neg at hlt
        exact findStop_min S t k hfs i hlt hocc
      have hik : k = i := Nat.le_antisymm h2 h1
      rw [enforce_stop_tokens, hfs, hik]
  · intro hnone
    cases hfs : findStop S t with
    | some k => exact absurd (findStop_occurs S t k hfs) (hnone k)
    | none => rw [enforce_stop_tokens, hfs]

/-- Witness for C2: in `"Hello, world!"` the stop string `"world"` occurs
earliest at offset 7, and truncation returns the first 7 characters,
`"Hello, "`. -/
theorem truncation_earliest_occurrence_witness :
    enforce_stop_tokens ("Hello, world!".toList) ["world".toList] = "Hello, ".toList := by
  have hmin : ∀ j, OccursAt ["world".toList] ("Hello, world!".toList) j → 7 ≤ j := by
    intro j hj
    by_contra hlt
    push_neg at hlt
    exact findStop_min ["world".toList] ("Hello, world!".toList) 7 (by decide) j hlt hj
  have h := (truncation_earliest_occurrence ["world".toList] ("Hello, world!".toList)
      (by decide)).1 7 (by decide) hmin
  rw [h]
  decide

/-- C1: when the effective parameters enable streaming and the remote
stream succeeds, `complete` returns the concatenation, in arrival order,
of the texts of the chunks produced by `streamComplete` with the same
prompt and stop, and stop-sequence truncation is applied to that
concatenation exactly when the caller supplied a stop list (`if stop is
not None`, src line 84). -/
theorem complete_streaming_concat (self : LangChainInterface) (prompt : Str)
    (stop : Option (List Str)) (remoteText : Str) (remote : RemoteStream)
    (hstream : (effectiveParams self stop).stream = true)
    (hok : remote.failure = none) :
    (call self prompt stop remoteText remote).1 =
      .ok (match stop with
        | some s =>
          enforce_stop_tokens
            (((streamComplete self prompt stop remote).1.map GenerationChunk.text).flatten) s
        | none =>
          ((streamComplete self prompt stop remote).1.map GenerationChunk.text).flatten) := by
  cases stop with
  | none => simp [call, streamComplete, hstream, hok, foldChunks_ok]
  | some s => simp [call, streamComplete, hstream, hok, foldChunks_ok]

/-- Witness for C1, the spec's concrete scenario: streaming enabled,
`stop = ["world"]`, remote chunks `["Hello, ", "world!"]`; `complete`
returns `"Hello, "`. -/
theorem complete_streaming_concat_witness :
    (call sampleStreamAdapter "Hi".toList (some ["world".toList]) []
        helloWorldStream).1 = .ok ("Hello, ".toList) := by
  rw [complete_streaming_concat sampleStreamAdapter "Hi".toList (some ["world".toList]) []
      helloWorldStream (by decide) (by decide)]
  rfl

/-- C3 (code bug): the caller-supplied stop override is persisted.  In
`_call` and `_stream`, `params` aliases `self.params` whenever the latter
is configured, so `params.stop_sequences = stop or params.stop_sequences`
(src line 79) mutates the configured parameters object.  Here an adapter
configured with stop sequence `"a"` is called with `stop = ["b"]`, and
after the call its configured `stop_sequences` is `["b"]`. -/
theorem call_persists_stop_override :
    sampleCfgAdapter.params
        = some { stream := false, stop_sequences := some ["a".toList] }
    ∧ (call sampleCfgAdapter "p".toList (some ["b".toList]) "t".toList {}).2.params
        = some { stream := false, stop_sequences := some ["b".toList] }
    ∧ (call sampleCfgAdapter "p".toList (some ["b".toList]) "t".toList {}).2.params
        ≠ sampleCfgAdapter.params := by
  refine ⟨rfl, rfl, ?_⟩
  decide

/-- C4: on the non-streaming path, when the effective stop-sequence list
is absent or empty, `complete` returns the remote service's generated
text unmodified. -/
theorem complete_nonstreaming_no_stop (self : LangChainInterface) (prompt : Str)
    (stop : Option (List Str)) (remoteText : Str) (remote : RemoteStream)
    (hns : (effectiveParams self stop).stream = false)
    (hstop : (effectiveParams self stop).stop_sequences = none ∨
        (effectiveParams self stop).stop_sequences = some []) :
    (call self prompt stop remoteText remote).1 = .ok remoteText := by
  rcases hstop with h | h <;> simp [call, hns, h, enforce_stop_tokens_nil]

/-- Witness for C4: an unconfigured adapter, non-streaming, no stop list;
`complete` returns the remote text `"Hello, world!"` unchanged. -/
theorem complete_nonstreaming_no_stop_witness :
    (call { params := none } "Hello".toList none "Hello, world!".toList {}).1
      = .ok ("Hello, world!".toList) :=
  complete_nonstreaming_no_stop { params := none } "Hello".toList none
    "Hello, world!".toList {} (by decide) (Or.inl (by decide))

/-- Counterexample to C5: `stop or params.stop_sequences` uses Python
truthiness, so a present but empty stop list does not replace the
configured stop sequences.  With configured stop sequences `["a"]` and
caller argument `stop = []`, the effective `stop_sequences` stays `["a"]`,
not the empty list the claim requires. -/
theorem effective_stop_empty_not_replaced :
    (effectiveParams sampleCfgAdapter (some [])).stop_sequences = some ["a".toList]
    ∧ (effectiveParams sampleCfgAdapter (some [])).stop_sequences ≠ some [] := by
  decide

/-- C5 (amended): for every call to `complete` or `streamComplete`, the
effective parameters equal the configured parameters (or defaults when
none are configured) with `stop_sequences` replaced by the caller's stop
argument whenever stop is present and non-empty, and left as configured
when stop is absent or empty. -/
theorem effective_params_resolution (self : LangChainInterface)
    (stop : Option (List Str)) :
    (∀ s, stop = some s → s ≠ [] →
        effectiveParams self stop =
          { self.params.getD {} with stop_sequences := some s })
    ∧ ((stop = none ∨ stop = some []) →
        effectiveParams self stop = self.params.getD {}) := by
  constructor
  · intro s hs hne
    subst hs
    cases s with
    | nil => exact absurd rfl hne
    | cons a as => simp [effectiveParams, pyOr]
  · rintro (h | h) <;> subst h <;> simp [effectiveParams, pyOr]

/-- Witness for C5 (amended): caller stop `["b"]` over configured stop
`["a"]` gives effective stop sequences `["b"]`, other fields unchanged. -/
theorem effective_params_resolution_witness :
    effectiveParams sampleCfgAdapter (some ["b".toList]) =
      { stream := false, stop_sequences := some ["b".toList] } :=
  (effective_params_resolution sampleCfgAdapter (some ["b".toList])).1
    ["b".toList] rfl (by decide)

/-- C6: `streamComplete` never truncates.  It yields one chunk per remote
response unit, in arrival order; each chunk's text is exactly the unit's
generated text and its `generation_info` is the unit's full metadata; and
the yielded chunks are identical for every stop argument, whether or not
any stop sequence occurs in the text. -/
theorem stream_chunks_raw (self : LangChainInterface) (prompt : Str)
    (stop : Option (List Str)) (remote : RemoteStream) :
    ((streamComplete self prompt stop remote).1.length = remote.units.length)
    ∧ (∀ i : Nat, ((streamComplete self prompt stop remote).1)[i]?
        = (remote.units[i]?).map fun r =>
            ({ text := r.generated_text, generation_info := r } : GenerationChunk))
    ∧ (∀ stop', (streamComplete self prompt stop remote).1
        = (streamComplete self prompt stop' remote).1) := by
  refine ⟨by simp [streamComplete], fun i => ?_, fun stop' => rfl⟩
  simp only [streamComplete, List.getElem?_map]
  rfl

/-- C7: constructing the adapter with a configuration field outside the
recognized ones (`credentials`, `model`, `params`) fails with a validation
error naming an unrecognized field; unknown fields are never silently
accepted, and no remote call is involved (validation is the whole of
construction). -/
theorem construction_rejects_unknown_field (fields : List Str) (f : Str)
    (hmem : f ∈ fields) (hunk : f ∉ recognizedFields) :
    ∃ g, validateConstruction fields = .error { field := g }
      ∧ g ∉ recognizedFields := by
  cases hfil : fields.filter (fun x => decide (x ∉ recognizedFields)) with
  | nil =>
    exfalso
    have hall := List.filter_eq_nil_iff.mp hfil f hmem
    simp at hall
    exact hunk hall
  | cons g gs =>
    refine ⟨g, ?_, ?_⟩
    · unfold validateConstruction
      rw [hfil]
    · have hg : g ∈ fields.filter (fun x => decide (x ∉ recognizedFields)) := by
        rw [hfil]; exact List.mem_cons_self g gs
      have := (List.mem_filter.mp hg).2
      simpa using this

/-- Witness for C7: supplying the unrecognized field `"foo"` alongside
`"model"` makes construction fail with a validation error. -/
theorem construction_rejects_unknown_field_witness :
    ∃ g, validateConstruction ["model".toList, "foo".toList]
        = .error { field := g } ∧ g ∉ recognizedFields :=
  construction_rejects_unknown_field ["model".toList, "foo".toList]
    "foo".toList (by decide) (by decide)

/-- C8: when the remote stream yields its units and then fails,
`streamComplete` yields exactly those units' chunks in order and then
raises the same error, and `complete` in streaming mode propagates that
error unmodified, returning no partial text. -/
theorem stream_failure_propagates (self : LangChainInterface) (prompt : Str)
    (stop : Option (List Str)) (remoteText : Str) (us : List StreamResponse)
    (e : TransportError)
    (hstream : (effectiveParams self stop).stream = true) :
    (streamComplete self prompt stop { units := us, failure := some e }).1
        = us.map mkChunk
    ∧ (streamComplete self prompt stop { units := us, failure := some e }).2.1
        = some e
    ∧ (call self prompt stop remoteText { units := us, failure := some e }).1
        = .error e := by
  refine ⟨rfl, rfl, ?_⟩
  cases stop with
  | none => simp [call, streamComplete, hstream, foldChunks_err]
  | some s => simp [call, streamComplete, hstream, foldChunks_err]

/-- Witness for C8, the spec's concrete scenario: one chunk then a
transport error; `complete` propagates the same error. -/
theorem stream_failure_propagates_witness :
    (call sampleStreamAdapter "Hi".toList none []
        { units := [{ generated_text := "Hello".toList }]
          failure := some { message := "transport".toList } }).1
      = .error { message := "transport".toList } :=
  (stream_failure_propagates sampleStreamAdapter "Hi".toList none []
      [{ generated_text := "Hello".toList }] { message := "transport".toList }
      (by decide)).2.2

/-- C9 (code bug): with the langchain package absent, the module fails at
at import time, but through the unguarded import at src line 5, whose bare
error message does not contain the install instruction; the guarded
message (src line 13), which does contain it, is never reached.
`findStop p m = none` states (per `findStop_none_not_occurs`) that the
phrase `p` does not occur in `m`. -/
theorem import_failure_lacks_install_hint :
    loadModule false false = .error { message := bareImportMessage }
    ∧ findStop ["ibm-generative-ai".toList] bareImportMessage = none
    ∧ (findStop ["ibm-generative-ai".toList] installHintMessage).isSome = true := by
  refine ⟨rfl, by decide, by decide⟩

/-- C10: with a run manager supplied, the callback for a yielded chunk
runs only when the consumer requests the following item.  For `1 ≤ n ≤
length rs` pulls, the generator's event trace is: for each of the first
`n - 1` units, a yield of its chunk immediately followed (on the next
pull) by exactly one callback carrying its text and the raw unit, and
finally the yield of the `n`-th chunk with no callback after it — so a
consumer abandoning iteration after a chunk never triggers that chunk's
callback. -/
theorem stream_callback_after_yield (rs : List StreamResponse) (n : Nat)
    (h1 : 1 ≤ n) (h2 : n ≤ rs.length) :
    pullTrace rs n =
      ((rs.take (n - 1)).map fun r =>
          [StreamEvent.yielded (mkChunk r),
           StreamEvent.callback r.generated_text r]).flatten
        ++ [StreamEvent.yielded (mkChunk (rs.getD (n - 1) default))] := by
  induction rs generalizing n with
  | nil => simp at h2; omega
  | cons r rs ih =>
    cases n with
    | zero => omega
    | succ n =>
      cases n with
      | zero => simp [pullTrace]
      | succ m =>
        have h2' : m + 1 ≤ rs.length := by simpa using h2
        simp [pullTrace, ih (m + 1) (by omega) h2', List.getD_cons_succ]

/-- Witness for C10: two remote units, two pulls; the trace is yield of
the first chunk, its callback, then yield of the second chunk — and no
callback for the second (abandoned-after) chunk. -/
theorem stream_callback_after_yield_witness :
    pullTrace [{ generated_text := "Hello, ".toList },
               { generated_text := "world!".toList }] 2
      = [StreamEvent.yielded (mkChunk { generated_text := "Hello, ".toList }),
         StreamEvent.callback "Hello, ".toList { generated_text := "Hello, ".toList },
         StreamEvent.yielded (mkChunk { generated_text := "world!".toList })] := by
  rw [stream_callback_after_yield
      [{ generated_text := "Hello, ".toList }, { generated_text := "world!".toList }]
      2 (by decide) (by decide)]
  rfl

end GenAI
